import Mathlib

/-!
Verification of the GrafanaRunner natural-language specification against a
shallow embedding of the repository's code.

Python strings are embedded as `List Char`; Python floats that carry panel
durations are embedded as rationals; fallible Python code is embedded in
`Except`.  Every definition is translated from the source file named in the
doc string above it, except those explicitly marked `Modelled from the spec:`.
-/

/- ## Python string primitives used by the source -/

/-- Membership test for a prefix: `pfx n h = true` iff `n` is a leading
segment of `h`.  Used to embed Python substring scanning. -/
def pfx : List Char → List Char → Bool
  | [], _ => true
  | _ :: _, [] => false
  | a :: as, b :: bs => a == b && pfx as bs

/-- Python's `needle in haystack` containment test on strings. -/
def substr (n : List Char) : List Char → Bool
  | [] => n.isEmpty
  | c :: t => pfx n (c :: t) || substr n t

/-- One step of Python's `str.replace`, with enough fuel to scan the whole
input.  When `old` matches at the head, it is consumed and `new` emitted, and
scanning resumes after the match (non-overlapping, left to right), exactly as
`str.replace` behaves. -/
def replaceGo (old new : List Char) : List Char → Nat → List Char
  | s, 0 => s
  | [], _ + 1 => []
  | c :: t, f + 1 =>
    if pfx old (c :: t) then new ++ replaceGo old new (List.drop old.length (c :: t)) f
    else c :: replaceGo old new t f

/-- Python's `s.replace(old, new)` for a non-empty `old` (the source only ever
replaces the non-empty placeholder `var-name=name`); an empty `old` is mapped
to the identity here. -/
def pyReplace (s old new : List Char) : List Char :=
  if old = [] then s else replaceGo old new s s.length

/- ## src/panel_navigator.py : PanelNavigator._prepare_panel_url -/

/-- The check `"&kiosk" not in url and "?kiosk" not in url` from
`PanelNavigator._prepare_panel_url`, negated: true iff the URL already carries
a kiosk marker. -/
def hasKioskMarker (url : List Char) : Bool :=
  substr "&kiosk".data url || substr "?kiosk".data url

/-- `PanelNavigator._prepare_panel_url` (src/panel_navigator.py lines 123-141).
`grafanaKioskMode` is the value of `self.config.get("grafana_kiosk_mode", True)`.
Python's `url.split("#", 1)` on a URL containing a hash is embedded as
takeWhile/dropWhile at the first hash character. -/
def prepare_panel_url (grafanaKioskMode : Bool) (url : List Char) : List Char :=
  if grafanaKioskMode then
    if !hasKioskMarker url then
      if substr ['#'] url then
        let baseUrl := url.takeWhile (fun c => c != '#')
        let fragment := (url.dropWhile (fun c => c != '#')).tail
        let sep : List Char := if substr ['?'] baseUrl then ['&'] else ['?']
        baseUrl ++ sep ++ "kiosk".data ++ ['#'] ++ fragment
      else
        let sep : List Char := if substr ['?'] url then ['&'] else ['?']
        url ++ sep ++ "kiosk".data
    else url
  else url

/- ## src/panel_navigator.py : PanelNavigator.navigate_to_panel -/

/-- Python exception classes that can cross the boundaries modelled here.
`unboundLocal` stands for the `UnboundLocalError` the interpreter raises when
a function reads a local variable before any assignment to it has run. -/
inductive PyExn
  | timeoutExn
  | noSuchElement
  | webDriverError
  | keyError
  | unboundLocal
deriving DecidableEq, Repr

/-- The slice of an `AuthHandler` observed by `navigate_to_panel`: the
`auth_enabled` attribute (and whether it exists at all, for the `hasattr`
check), the results of the two page probes on the current page, and the
outcome of `check_and_handle_authentication`. -/
structure AHModel where
  hasAuthEnabledAttr : Bool
  authEnabled : Bool
  isLoginPage : Bool
  isTotpPage : Bool
  checkAndHandle : Except PyExn Bool

/-- The `skip_overlay` computation of `navigate_to_panel`
(src/panel_navigator.py lines 29-46): with no auth handler the flag keeps its
initial `False`; otherwise a missing or false `auth_enabled` sets it, else
being on a login or second-factor page sets it. -/
def skip_overlay (ah : Option AHModel) : Bool :=
  match ah with
  | none => false
  | some h =>
    if !h.hasAuthEnabledAttr || !h.authEnabled then true
    else if h.isLoginPage || h.isTotpPage then true
    else false

/-- The fallible browser steps `navigate_to_panel` performs after the overlay
decision: `driver.get(panel_url)` and the readyState wait (which raises
`timeoutExn` on timeout). -/
structure DriverNav where
  getResult : Except PyExn Unit
  waitLoadResult : Except PyExn Unit

/-- The `if auth_handler and not auth_handler.check_and_handle_authentication
(driver)` guard: absent handler means no check (truthy `True`). -/
def authCheckStep (ah : Option AHModel) : Except PyExn Bool :=
  match ah with
  | none => Except.ok true
  | some h => h.checkAndHandle

/-- The body of the `try` block of `navigate_to_panel` after the URL has been
prepared.  Both the overlay branch and the direct branch perform the same
fallible steps (navigate, wait for readyState, authentication check);
`show_transition_overlay` and the overlay-duration sleep cannot raise because
`show_transition_overlay` catches all its exceptions internally. -/
def navBody (d : DriverNav) (ah : Option AHModel) : Except PyExn Bool :=
  if skip_overlay ah then do
    let _ ← d.getResult
    let _ ← d.waitLoadResult
    let ok ← authCheckStep ah
    if ok then pure true else pure false
  else do
    let _ ← d.getResult
    let _ ← d.waitLoadResult
    let ok ← authCheckStep ah
    if ok then pure true else pure false

/-- A panel dictionary as seen by `navigate_to_panel`: the `url` key may be
absent (`panel["url"]` then raises `KeyError`). -/
structure PanelDict where
  name : Option (List Char)
  url : Option (List Char)

/-- `PanelNavigator.navigate_to_panel` (src/panel_navigator.py lines 19-121).
Result: the `Except` value is what the call does (normal return of a boolean,
or an exception escaping to the caller); the second component records whether
`hide_transition_overlay` ran in an exception handler.

When the panel has no `url` key, the first statement of the `try` block raises
`KeyError` before the local `panel_url` is assigned; both `except` handlers
then interpolate `panel_url` into a log message, which raises
`UnboundLocalError` inside the handler, and that exception escapes the call. -/
def navigate_to_panel (d : DriverNav) (p : PanelDict) (ah : Option AHModel)
    (grafanaKioskMode : Bool) : Except PyExn Bool × Bool :=
  match p.url with
  | none => (Except.error PyExn.unboundLocal, false)
  | some u =>
    let _ := prepare_panel_url grafanaKioskMode u
    match navBody d ah with
    | Except.ok b => (Except.ok b, false)
    | Except.error _ => (Except.ok false, true)

/- ## src/auth_handler.py : AuthHandler -/

/-- The fixed substrings `AuthHandler.is_login_page` scans the current address
for (src/auth_handler.py lines 68-83). -/
def login_indicators : List (List Char) :=
  ["agrana.cern.ch/login".data, "login/generic_oauth".data,
   "auth.cern.ch".data, "/login".data]

/-- `AuthHandler.is_login_page`, as a predicate on the current address. -/
def is_login_page (currentUrl : List Char) : Bool :=
  login_indicators.any (fun ind => substr ind currentUrl)

/-- The auth-page markers polled by
`AuthHandler._wait_for_successful_authentication`
(src/auth_handler.py line 248). -/
def auth_indicators : List (List Char) :=
  ["login".data, "auth.cern.ch".data, "oauth".data, "/otp".data]

/-- The success condition of one polling step of
`_wait_for_successful_authentication`: the lower-cased address matches no
auth-page marker and the address contains the Grafana domain. -/
def authRedirectDone (currentUrl : List Char) : Bool :=
  !(auth_indicators.any (fun ind => substr ind (currentUrl.map Char.toLower)))
    && substr "agrana.cern.ch".data currentUrl

/-- The polling loop of `_wait_for_successful_authentication`: the source
polls `driver.current_url` once per second (`time.sleep(1)`) while
`time.time() - start_time < 30`, so it performs at most 30 polls; `urls t` is
the address observed at the t-th poll. -/
def waitAuthLoop (urls : Nat → List Char) : Nat → Nat → Bool
  | _, 0 => false
  | t, n + 1 => if authRedirectDone (urls t) then true else waitAuthLoop urls (t + 1) n

/-- `AuthHandler._wait_for_successful_authentication`
(src/auth_handler.py lines 237-267): true iff some poll within the 30-second
ceiling sees a non-auth Grafana address; on timeout it logs a warning and
returns false.  Its own `try/except` means it never raises. -/
def wait_for_successful_authentication (urls : Nat → List Char) : Bool :=
  waitAuthLoop urls 0 30

/-- The behaviour of one browser session during `handle_authentication`:
`_click_cern_sso_login` and `_fill_login_credentials` catch all their own
exceptions and only report a boolean; `is_totp_page` catches only
`NoSuchElementException`, so other driver errors escape it;
`_handle_totp_authentication` re-raises every failure; `urls` gives the
address seen at each poll of the final wait. -/
structure AuthFlowDriver where
  clickSsoClicked : Bool
  credsFilled : Bool
  isTotpPageResult : Except PyExn Bool
  totpHandling : Except PyExn Unit
  urls : Nat → List Char

/-- `AuthHandler.handle_authentication` (src/auth_handler.py lines 95-124).
The source calls `_wait_for_successful_authentication(driver)` as a bare
statement, discards its boolean result, and returns `True`; the `except`
block converts any exception raised inside the `try` into a `False` return. -/
def handle_authentication (d : AuthFlowDriver) : Bool :=
  let body : Except PyExn Bool := do
    let _ := d.clickSsoClicked
    let _ := d.credsFilled
    let totpPage ← d.isTotpPageResult
    let _ ← (if totpPage then d.totpHandling else Except.ok ())
    let _ := wait_for_successful_authentication d.urls
    pure true
  match body with
  | Except.ok b => b
  | Except.error _ => false

/- ## src/config.py : ConfigManager.expand_panels -/

/-- Python's `round(x, 1)` on the exact rational value: round half to even at
the integer scale (the tie-breaking Python's float `round` uses). -/
def roundHalfEven (q : ℚ) : ℤ :=
  if q - ⌊q⌋ = 1 / 2 then (if ⌊q⌋ % 2 = 0 then ⌊q⌋ else ⌊q⌋ + 1) else round q

/-- `round(x, 1)`: one decimal place. -/
def round1 (q : ℚ) : ℚ := (roundHalfEven (10 * q) : ℚ) / 10

/-- List flat-map, written out so that its equations are structural. -/
def flatAppend (f : α → List β) : List α → List β
  | [] => []
  | a :: as => f a ++ flatAppend f as

/-- `itertools.product(*var_values)`: all combinations, first list varying
slowest, as tuples in list form. -/
def combinations : List (List (List Char)) → List (List (List Char))
  | [] => [[]]
  | vs :: rest => flatAppend (fun v => (combinations rest).map (fun tail => v :: tail)) vs

/-- Python's `sep.join(parts)`. -/
def joinSep (sep : List Char) : List (List Char) → List Char
  | [] => []
  | [x] => x
  | x :: y :: rest => x ++ sep ++ joinSep sep (y :: rest)

/-- The placeholder `f"var-{var_name}={var_name}"` from `expand_panels`. -/
def placeholderOf (n : List Char) : List Char :=
  "var-".data ++ n ++ "=".data ++ n

/-- The replacement `f"var-{var_name}={var_value}"` from `expand_panels`. -/
def replacementOf (n v : List Char) : List Char :=
  "var-".data ++ n ++ "=".data ++ v

/-- The URL substitution loop of `expand_panels` (src/config.py lines 96-100):
for each variable of the combination in order, replace every occurrence of
its placeholder by its chosen value. -/
def substituteVars (url : List Char) (m : List (List Char × List Char)) : List Char :=
  m.foldl (fun acc nv => pyReplace acc (placeholderOf nv.1) (replacementOf nv.1 nv.2)) url

/-- The generated display name of an expanded panel (src/config.py line 104):
the parent name followed by the comma-joined `key=value` pairs in
parentheses. -/
def mkExpandedName (base : List Char) (m : List (List Char × List Char)) : List Char :=
  base ++ " (".data ++ joinSep ", ".data (m.map (fun nv => nv.1 ++ "=".data ++ nv.2)) ++ ")".data

/-- A configured panel as `expand_panels` receives it: optional `name`,
required `url` and `duration`, optional ordered `variables` mapping. -/
structure InPanel where
  name : Option (List Char)
  url : List Char
  duration : ℚ
  templateVars : Option (List (List Char × List (List Char)))
deriving DecidableEq

/-- A panel as `expand_panels` emits it.  Panels without `variables` are
passed through unchanged and so have no `variables`/`original_panel` keys
(`varMap`/`originalPanel` are `none`); expanded panels carry the single-value
assignment of their combination in `varMap`. -/
structure OutPanel where
  name : Option (List Char)
  url : List Char
  duration : ℚ
  varMap : Option (List (List Char × List Char))
  originalPanel : Option (List Char)
deriving DecidableEq

/-- `panel.get("name", "Unnamed")`. -/
def nameOf (p : InPanel) : List Char := p.name.getD "Unnamed".data

/-- The `else` branch of `expand_panels`: a panel without variables is
appended as-is. -/
def passThrough (p : InPanel) : OutPanel :=
  { name := p.name, url := p.url, duration := p.duration
    varMap := none, originalPanel := none }

/-- The expanded panel built for one combination (the inner loop body of
`expand_panels`, src/config.py lines 91-111): the variable mapping zips the
variable names with the combination, the URL has the placeholders
substituted, and the duration is the precomputed per-combination share. -/
def mkExpandedPanel (p : InPanel) (varNames : List (List Char)) (dpc : ℚ)
    (combo : List (List Char)) : OutPanel :=
  let varMap := varNames.zip combo
  { name := some (mkExpandedName (nameOf p) varMap)
    url := substituteVars p.url varMap
    duration := dpc
    varMap := some varMap
    originalPanel := some (nameOf p) }

/-- Expansion of a single panel (the loop body of `expand_panels`,
src/config.py lines 68-114): a panel without `variables` passes through; a
panel with `variables` is skipped when the combination list is empty, and
otherwise yields one panel per combination, each with the rounded duration
share, the substituted URL, the generated name, and its assignment. -/
def expandOne (p : InPanel) : List OutPanel :=
  match p.templateVars with
  | none => [passThrough p]
  | some vars =>
    let combos := combinations (vars.map (fun nv => nv.2))
    if combos.isEmpty then []
    else
      combos.map (mkExpandedPanel p (vars.map (fun nv => nv.1))
        (round1 (p.duration / (combos.length : ℚ))))

/-- `ConfigManager.expand_panels` (src/config.py lines 64-116). -/
def expand_panels (ps : List InPanel) : List OutPanel :=
  flatAppend expandOne ps

/- ## Rotation loop display time -/

/-- Modelled from the spec: the navigator-driven rotation loop (the main
module that wires ConfigManager, BrowserSetup, PanelNavigator and AuthHandler
together and that spec section 4.3 describes) is not among the provided
source files; the legacy `GrafanaRunner.run` in src/grafana_runner.py sleeps
the raw configured duration and implements neither the navigator hand-off nor
the display-time formula.  Per spec 4.3 the loop computes
`displayTime = max(panel.duration - elapsedNavigationTime, 0.5)` and sleeps
that long. -/
def displayTime (duration elapsed : ℚ) : ℚ := max (duration - elapsed) (1 / 2)

/-- The sleep performed per panel by the legacy monolithic loop
`GrafanaRunner.run` (src/grafana_runner.py lines 422-457): the raw configured
duration, with no elapsed-time subtraction and no floor. -/
def legacyRunSleep (duration : ℚ) : ℚ := duration

/- ## One-time-code generation -/

/-- Modelled from the spec: `AuthHandler._generate_totp_code` delegates to the
external `pyotp` library (not part of this repository), which implements the
standard time-based one-time-password algorithm of RFC 6238 over HOTP
(RFC 4226) with HMAC-SHA-1, 30-second steps and 6 digits.  The algorithm is
embedded below and checked against the published RFC reference vectors.
Left rotation of a 32-bit word. -/
def rotl32 (k n : Nat) : Nat :=
  ((n <<< k) % 4294967296) ||| (n >>> (32 - k))

/-- SHA-1 round function. -/
def sha1F (i b c d : Nat) : Nat :=
  if i < 20 then (b &&& c) ||| ((4294967295 ^^^ b) &&& d)
  else if i < 40 then b ^^^ c ^^^ d
  else if i < 60 then (b &&& c) ||| (b &&& d) ||| (c &&& d)
  else b ^^^ c ^^^ d

/-- SHA-1 round constants. -/
def sha1K (i : Nat) : Nat :=
  if i < 20 then 1518500249
  else if i < 40 then 1859775393
  else if i < 60 then 2400959708
  else 3395469782

/-- Big-endian word from a list of bytes. -/
def wordOfBytes (l : List Nat) : Nat := l.foldl (fun a b => a * 256 + b) 0

/-- Split a list into chunks of `sz` elements (fuel-driven so that the
equations stay structural). -/
def chunksOf (sz : Nat) : Nat → List Nat → List (List Nat)
  | 0, _ => []
  | _ + 1, [] => []
  | f + 1, l => l.take sz :: chunksOf sz f (l.drop sz)

/-- Message-schedule expansion from 16 to 80 words. -/
def expandWords (ws : List Nat) : List Nat :=
  (List.range 64).foldl
    (fun acc _ =>
      let m := acc.length
      acc ++ [rotl32 1 ((acc.getD (m - 3) 0) ^^^ (acc.getD (m - 8) 0) ^^^
        (acc.getD (m - 14) 0) ^^^ (acc.getD (m - 16) 0))])
    ws

/-- One SHA-1 round on the five-word state. -/
def sha1Round (st : Nat × Nat × Nat × Nat × Nat) (iw : Nat × Nat) :
    Nat × Nat × Nat × Nat × Nat :=
  let (a, b, c, d, e) := st
  let (i, w) := iw
  let t := (rotl32 5 a + sha1F i b c d + e + sha1K i + w) % 4294967296
  (t, a, rotl32 30 b, c, d)

/-- SHA-1 compression of one 64-byte block into the chaining state. -/
def sha1Block (h : Nat × Nat × Nat × Nat × Nat) (block : List Nat) :
    Nat × Nat × Nat × Nat × Nat :=
  let ws := expandWords ((chunksOf 4 block.length block).map wordOfBytes)
  let (h0, h1, h2, h3, h4) := h
  let (a, b, c, d, e) := List.foldl sha1Round (h0, h1, h2, h3, h4) ws.enum
  ((h0 + a) % 4294967296, (h1 + b) % 4294967296, (h2 + c) % 4294967296,
   (h3 + d) % 4294967296, (h4 + e) % 4294967296)

/-- Big-endian byte encoding of `n` on `k` bytes. -/
def natToBytesBE (k n : Nat) : List Nat :=
  (List.range k).map (fun i => n / 2 ^ (8 * (k - 1 - i)) % 256)

/-- Number of zero bytes of SHA-1 padding for a message of `l` bytes. -/
def sha1PadLen (l : Nat) : Nat := (64 + 56 - ((l + 1) % 64)) % 64

/-- SHA-1 padding: a 0x80 byte, zeros to 56 mod 64, then the bit length on
8 bytes big-endian. -/
def sha1Pad (msg : List Nat) : List Nat :=
  msg ++ [128] ++ List.replicate (sha1PadLen msg.length) 0 ++
    natToBytesBE 8 (8 * msg.length)

/-- SHA-1 digest (20 bytes) of a byte string. -/
def sha1Digest (msg : List Nat) : List Nat :=
  let padded := sha1Pad msg
  let blocks := chunksOf 64 padded.length padded
  let (h0, h1, h2, h3, h4) := List.foldl sha1Block
    (1732584193, 4023233417, 2562383102, 271733878, 3285377520) blocks
  natToBytesBE 4 h0 ++ natToBytesBE 4 h1 ++ natToBytesBE 4 h2 ++
    natToBytesBE 4 h3 ++ natToBytesBE 4 h4

/-- HMAC-SHA-1 (RFC 2104) with the 64-byte block size. -/
def hmacSha1 (key msg : List Nat) : List Nat :=
  let k0 := if 64 < key.length then sha1Digest key else key
  let kp := k0 ++ List.replicate (64 - k0.length) 0
  sha1Digest ((kp.map (fun b => b ^^^ 92)) ++
    sha1Digest ((kp.map (fun b => b ^^^ 54)) ++ msg))

/-- HOTP (RFC 4226): HMAC-SHA-1 of the 8-byte counter, dynamic truncation,
reduced to `digits` decimal digits. -/
def hotp (key : List Nat) (counter digits : Nat) : Nat :=
  let hs := hmacSha1 key (natToBytesBE 8 counter)
  let off := hs.getD 19 0 &&& 15
  let bin := ((hs.getD off 0 &&& 127) <<< 24) ||| ((hs.getD (off + 1) 0) <<< 16) |||
    ((hs.getD (off + 2) 0) <<< 8) ||| hs.getD (off + 3) 0
  bin % 10 ^ digits

/-- TOTP (RFC 6238) with the 30-second time step pyotp defaults to. -/
def totpAt (key : List Nat) (timestamp digits : Nat) : Nat :=
  hotp key (timestamp / 30) digits

/-- Value of one base32 character (RFC 4648 alphabet), as pyotp's secret
decoding uses; `none` on a character outside the alphabet. -/
def b32Val (c : Char) : Option Nat :=
  if 65 ≤ c.toNat ∧ c.toNat ≤ 90 then some (c.toNat - 65)
  else if 50 ≤ c.toNat ∧ c.toNat ≤ 55 then some (c.toNat - 24)
  else none

/-- Values of all base32 characters of a secret, or `none` when any is
invalid. -/
def b32Vals : List Char → Option (List Nat)
  | [] => some []
  | c :: t => do
    let v ← b32Val c
    let r ← b32Vals t
    pure (v :: r)

/-- Base32 decoding of a secret (padding characters stripped): concatenate
the 5-bit groups and keep the whole bytes. -/
def base32Decode (s : List Char) : Option (List Nat) :=
  (b32Vals (s.filter (fun c => c != '='))).map (fun vs =>
    let bits := 5 * vs.length
    natToBytesBE (bits / 8) ((vs.foldl (fun a v => a * 32 + v) 0) >>> (bits % 8)))

/-- `AuthHandler._generate_totp_code` at a given timestamp: decode the stored
base32 secret and produce the 6-digit time-based code (pyotp's
`TOTP(secret).now()`); `none` models the exception path on an invalid
secret. -/
def generate_totp_code (secretB32 : List Char) (timestamp : Nat) : Option Nat :=
  (base32Decode secretB32).map (fun key => totpAt key timestamp 6)

/- ## Concrete inputs used by counterexamples and witnesses -/

/-- A session whose address stays on the identity provider for the whole
30-poll ceiling, with no second-factor field and no exception anywhere. -/
def authStuckDriver : AuthFlowDriver :=
  { clickSsoClicked := false
    credsFilled := false
    isTotpPageResult := Except.ok false
    totpHandling := Except.ok ()
    urls := fun _ => "https://auth.cern.ch/auth/realms/cern/login".data }

/-- A browser whose navigation steps all succeed. -/
def navOkDriver : DriverNav :=
  { getResult := Except.ok (), waitLoadResult := Except.ok () }

/-- A panel dictionary without a `url` key. -/
def noUrlPanel : PanelDict := { name := some "P".data, url := none }

/-- Templated panel whose duration share rounds to one decimal as 0.0:
duration 0.1 split over 3 combinations. -/
def c4Panel : InPanel :=
  { name := some "P".data, url := "http://x/d/1".data, duration := 1 / 10
    templateVars := some [("a".data, ["1".data, "2".data, "3".data])] }

/-- A plain valid panel for the amended-invariant witness. -/
def w4Panel : InPanel :=
  { name := some "A".data, url := "http://x/d/a?orgId=1".data, duration := 5
    templateVars := none }

/-- The variables of the expansion witness: 2 x 3 combinations. -/
def w5Vars : List (List Char × List (List Char)) :=
  [("a".data, ["1".data, "2".data]), ("b".data, ["x".data, "y".data, "z".data])]

/-- Templated panel with 6 combinations for the expansion witness. -/
def w5Panel : InPanel :=
  { name := some "T".data, url := "http://x/d/t?var-a=a&var-b=b".data, duration := 30
    templateVars := some w5Vars }

/-- Templated panel whose URL carries no placeholder for its variable. -/
def w10Panel : InPanel :=
  { name := some "N".data, url := "http://x/d/n?orgId=1".data, duration := 10
    templateVars := some [("a".data, ["p".data, "q".data])] }

/-- A URL that already carries the kiosk marker. -/
def kioskedUrl : List Char := "http://localhost:3000/d/test?kiosk".data

/- ## Basic lemmas about the string primitives -/

theorem pfx_append_self (n t : List Char) : pfx n (n ++ t) = true := by
  induction n with
  | nil => rfl
  | cons a as ih => simp [pfx, ih]

theorem substr_cons_eq (n : List Char) (c : Char) (t : List Char) :
    substr n (c :: t) = (pfx n (c :: t) || substr n t) := rfl

theorem substr_nil_needle (s : List Char) : substr [] s = true := by
  cases s <;> simp [substr, pfx, List.isEmpty]

theorem substr_of_decomp (n pre post : List Char) :
    substr n (pre ++ n ++ post) = true := by
  induction pre with
  | nil =>
    cases n with
    | nil => simpa using substr_nil_needle post
    | cons a as =>
      have hp : pfx (a :: as) ((a :: as) ++ post) = true := pfx_append_self _ _
      have hcons : ([] : List Char) ++ (a :: as) ++ post = a :: (as ++ post) := by simp
      rw [hcons, substr_cons_eq,
        show (a : Char) :: (as ++ post) = (a :: as) ++ post from rfl, hp]
      simp
  | cons c t ih =>
    have hcons : (c :: t) ++ n ++ post = c :: (t ++ n ++ post) := by simp
    rw [hcons, substr_cons_eq, ih]
    simp

theorem substr_append_right (n pre : List Char) :
    substr n (pre ++ n) = true := by
  have h := substr_of_decomp n pre []
  simpa using h

theorem replaceGo_id_of_not_substr (old new : List Char)
    (f : Nat) (s : List Char) (h : substr old s = false) :
    replaceGo old new s f = s := by
  induction f generalizing s with
  | zero => cases s <;> rfl
  | succ f ih =>
    cases s with
    | nil => rfl
    | cons c t =>
      rw [substr_cons_eq] at h
      have hp : pfx old (c :: t) = false := by
        cases hq : pfx old (c :: t) <;> simp [hq] at h ⊢
      have ht : substr old t = false := by
        cases hq : substr old t <;> simp [hq, hp] at h ⊢
      simp [replaceGo, hp, ih t ht]

theorem pyReplace_id_of_not_substr (s old new : List Char)
    (h : substr old s = false) : pyReplace s old new = s := by
  unfold pyReplace
  by_cases ho : old = []
  · simp [ho]
  · simp [ho, replaceGo_id_of_not_substr old new s.length s h]

/- ## Lemmas about prepare_panel_url -/

theorem substr_of_decomp' (n pre post : List Char) :
    substr n (pre ++ (n ++ post)) = true := by
  have h := substr_of_decomp n pre post
  simpa [List.append_assoc] using h

theorem prepare_marker_id (m : Bool) (u : List Char)
    (h : hasKioskMarker u = true) : prepare_panel_url m u = u := by
  cases m <;> simp [prepare_panel_url, h]

theorem marker_after_insert (base post : List Char) (sep : Char)
    (hsep : sep = '?' ∨ sep = '&') :
    hasKioskMarker (base ++ [sep] ++ "kiosk".data ++ post) = true := by
  rcases hsep with h | h <;> subst h
  · have hq : substr "?kiosk".data (base ++ ("?kiosk".data ++ post)) = true :=
      substr_of_decomp' _ _ _
    simp only [hasKioskMarker, List.append_assoc, List.singleton_append]
    simp only [List.append_assoc, List.cons_append, List.nil_append] at hq
    simp [hq]
  · have hq : substr "&kiosk".data (base ++ ("&kiosk".data ++ post)) = true :=
      substr_of_decomp' _ _ _
    simp only [hasKioskMarker, List.append_assoc, List.singleton_append]
    simp only [List.append_assoc, List.cons_append, List.nil_append] at hq
    simp [hq]

theorem prepare_result_has_marker (u : List Char)
    (hm : hasKioskMarker u = false) :
    hasKioskMarker (prepare_panel_url true u) = true := by
  by_cases hh : substr ['#'] u = true
  · by_cases hq : substr ['?'] (u.takeWhile (fun c => c != '#')) = true
    · have := marker_after_insert (u.takeWhile (fun c => c != '#'))
        (['#'] ++ (u.dropWhile (fun c => c != '#')).tail) '&' (Or.inr rfl)
      simpa [prepare_panel_url, hm, hh, hq, List.append_assoc] using this
    · have := marker_after_insert (u.takeWhile (fun c => c != '#'))
        (['#'] ++ (u.dropWhile (fun c => c != '#')).tail) '?' (Or.inl rfl)
      simpa [prepare_panel_url, hm, hh, hq, List.append_assoc] using this
  · by_cases hq : substr ['?'] u = true
    · have := marker_after_insert u [] '&' (Or.inr rfl)
      simpa [prepare_panel_url, hm, hh, hq, List.append_assoc] using this
    · have := marker_after_insert u [] '?' (Or.inl rfl)
      simpa [prepare_panel_url, hm, hh, hq, List.append_assoc] using this

/-- Claim C6: URL preparation is idempotent for every kiosk-mode setting and
every URL: preparing the result of preparing a URL yields the same string as
preparing it once, and a URL that already carries the kiosk marker is
returned unchanged. -/
theorem c6_prepare_idempotent (m : Bool) (u : List Char) :
    prepare_panel_url m (prepare_panel_url m u) = prepare_panel_url m u ∧
    (hasKioskMarker u = true → prepare_panel_url m u = u) := by
  constructor
  · cases m with
    | false => simp [prepare_panel_url]
    | true =>
      by_cases hm : hasKioskMarker u = true
      · rw [prepare_marker_id true u hm, prepare_marker_id true u hm]
      · have hm' : hasKioskMarker u = false := by
          cases h : hasKioskMarker u
          · rfl
          · exact absurd h hm
        exact prepare_marker_id true _ (prepare_result_has_marker u hm')
  · intro hm
    exact prepare_marker_id m u hm

/-- Witness for C6 at the concrete already-kiosk-tagged URL from the spec's
test catalogue. -/
theorem c6_witness :
    prepare_panel_url true (prepare_panel_url true kioskedUrl) =
      prepare_panel_url true kioskedUrl ∧
    prepare_panel_url true kioskedUrl = kioskedUrl :=
  ⟨(c6_prepare_idempotent true kioskedUrl).1,
   (c6_prepare_idempotent true kioskedUrl).2 (by decide)⟩

/-- Claim C7: with kiosk mode enabled, URL preparation appends the marker
with a question mark when the URL has no query string, with an ampersand when
it has one, returns a URL already carrying the marker unchanged, and inserts
the marker before the hash of a fragment-carrying URL, after any existing
query of its base part. -/
theorem c7_prepare_cases (u : List Char) :
    (hasKioskMarker u = false → substr ['#'] u = false → substr ['?'] u = false →
      prepare_panel_url true u = u ++ "?kiosk".data) ∧
    (hasKioskMarker u = false → substr ['#'] u = false → substr ['?'] u = true →
      prepare_panel_url true u = u ++ "&kiosk".data) ∧
    (hasKioskMarker u = true → prepare_panel_url true u = u) ∧
    (hasKioskMarker u = false → substr ['#'] u = true →
      prepare_panel_url true u =
        (u.takeWhile (fun c => c != '#')) ++
          (if substr ['?'] (u.takeWhile (fun c => c != '#')) then ['&'] else ['?']) ++
          "kiosk".data ++ ['#'] ++ (u.dropWhile (fun c => c != '#')).tail) := by
  refine ⟨?_, ?_, ?_, ?_⟩
  · intro hm hh hq
    simp [prepare_panel_url, hm, hh, hq]
  · intro hm hh hq
    simp [prepare_panel_url, hm, hh, hq]
  · intro hm
    exact prepare_marker_id true u hm
  · intro hm hh
    simp [prepare_panel_url, hm, hh]

/-- Witness for C7 at the four concrete URL shapes of the spec's test
catalogue. -/
theorem c7_witness :
    prepare_panel_url true "http://localhost:3000/d/test".data =
      "http://localhost:3000/d/test".data ++ "?kiosk".data ∧
    prepare_panel_url true "http://localhost:3000/d/test?orgId=1".data =
      "http://localhost:3000/d/test?orgId=1".data ++ "&kiosk".data ∧
    prepare_panel_url true "http://localhost:3000/d/test?kiosk".data =
      "http://localhost:3000/d/test?kiosk".data ∧
    prepare_panel_url true "http://localhost:3000/d/test?orgId=1#section".data =
      ("http://localhost:3000/d/test?orgId=1#section".data.takeWhile (fun c => c != '#')) ++
        (if substr ['?'] ("http://localhost:3000/d/test?orgId=1#section".data.takeWhile
          (fun c => c != '#')) then ['&'] else ['?']) ++
        "kiosk".data ++ ['#'] ++
        ("http://localhost:3000/d/test?orgId=1#section".data.dropWhile (fun c => c != '#')).tail :=
  ⟨(c7_prepare_cases _).1 (by decide) (by decide) (by decide),
   (c7_prepare_cases _).2.1 (by decide) (by decide) (by decide),
   (c7_prepare_cases _).2.2.1 (by decide),
   (c7_prepare_cases _).2.2.2 (by decide) (by decide)⟩

/- ## Authentication flow (C1) -/

/-- Claim C1 (code_bug evaluation): on a session that never leaves the
identity provider, the final polling step times out and reports failure, yet
`handle_authentication` still returns true, because the source discards the
result of `_wait_for_successful_authentication` and returns `True` whenever
steps (a)-(c) raise no exception. -/
theorem c1_wait_result_ignored :
    handle_authentication authStuckDriver = true ∧
    wait_for_successful_authentication authStuckDriver.urls = false := by
  constructor
  · rfl
  · decide

/- ## Overlay decision (C2) -/

/-- Counterexample to claim C2 as stated: with no authentication coordinator
supplied the claim says the overlay is skipped, but `skip_overlay` keeps its
initial false value, so the overlay is shown. -/
theorem c2_counterexample :
    ¬ (skip_overlay (none : Option AHModel) = true ↔
        ((none : Option AHModel) = none ∨
          ∃ h, (none : Option AHModel) = some h ∧
            (h.hasAuthEnabledAttr = false ∨ h.authEnabled = false ∨
             h.isLoginPage = true ∨ h.isTotpPage = true))) := by
  intro hiff
  have h := hiff.2 (Or.inl rfl)
  simp [skip_overlay] at h

/-- Claim C2 (amended): the transition overlay is skipped iff an
authentication coordinator IS supplied and either its enabled-flag is missing
or false, or the session is currently on a login page or second-factor page;
with no coordinator supplied the overlay is shown. -/
theorem c2_overlay_skip_amended (ah : Option AHModel) :
    skip_overlay ah = true ↔
      ∃ h, ah = some h ∧
        (h.hasAuthEnabledAttr = false ∨ h.authEnabled = false ∨
         h.isLoginPage = true ∨ h.isTotpPage = true) := by
  cases ah with
  | none => simp [skip_overlay]
  | some h =>
    obtain ⟨a, e, l, t, c⟩ := h
    cases a <;> cases e <;> cases l <;> cases t <;> simp [skip_overlay]

/- ## Rotation-loop display time (C3) -/

/-- Claim C3: the time the rotation loop sleeps after navigating to a panel
is `max(duration - elapsed, 0.5)`, and therefore never drops below half a
second, even when the elapsed navigation time exceeds the configured
duration. -/
theorem c3_display_time (duration elapsed : ℚ) :
    displayTime duration elapsed = max (duration - elapsed) (1 / 2) ∧
    1 / 2 ≤ displayTime duration elapsed := by
  exact ⟨rfl, le_max_right _ _⟩

/- ## Navigation error handling (C8) -/

/-- Claim C8 (code_bug evaluation): for a panel dictionary without a `url`
key, `navigate_to_panel` does not return false — the `except` handlers
themselves raise `UnboundLocalError` when they interpolate the never-assigned
`panel_url`, and that exception escapes to the caller without the overlay
being cleared. -/
theorem c8_exception_escapes :
    navigate_to_panel navOkDriver noUrlPanel none true =
      (Except.error PyExn.unboundLocal, false) := rfl

/- ## One-time-code generation (C9) -/

set_option maxRecDepth 40000 in
/-- Claim C9: the modelled time-based one-time-code generation reproduces the
published RFC 6238 Appendix B reference values for the standard 20-byte ASCII
test secret (base32 GEZDGNBVGY3TQOJQGEZDGNBVGY3TQOJQ): at timestamp 59 the
8-digit reference code is 94287082 and the 6-digit code the handler produces
is 287082; at timestamp 1111111109 the 8-digit reference code is 07081804. -/
theorem c9_totp_reference_vectors :
    generate_totp_code "GEZDGNBVGY3TQOJQGEZDGNBVGY3TQOJQ".data 59 = some 287082 ∧
    totpAt ("12345678901234567890".data.map Char.toNat) 59 8 = 94287082 ∧
    totpAt ("12345678901234567890".data.map Char.toNat) 1111111109 8 = 7081804 := by
  refine ⟨by decide, by decide, by decide⟩

/- ## Lemmas about panel expansion -/

theorem mem_flatAppend {α β : Type} {f : α → List β} {b : β} {l : List α} :
    b ∈ flatAppend f l ↔ ∃ a ∈ l, b ∈ f a := by
  induction l with
  | nil => simp [flatAppend]
  | cons a as ih => simp [flatAppend, ih, List.mem_append]

theorem length_flatAppend {α β : Type} (f : α → List β) (l : List α) :
    (flatAppend f l).length = (l.map (fun a => (f a).length)).sum := by
  induction l with
  | nil => rfl
  | cons a as ih => simp [flatAppend, ih]

theorem sum_map_const {α : Type} (l : List α) (k : ℕ) :
    (l.map (fun _ => k)).sum = l.length * k := by
  induction l with
  | nil => simp
  | cons a t ih => simp [ih, Nat.succ_mul, Nat.add_comm]

theorem length_combinations (ls : List (List (List Char))) :
    (combinations ls).length = (ls.map List.length).prod := by
  induction ls with
  | nil => rfl
  | cons vs rest ih =>
    simp only [combinations, length_flatAppend, List.length_map, List.map_cons,
      List.prod_cons]
    rw [sum_map_const, ih]

theorem combos_length (vars : List (List Char × List (List Char))) :
    (combinations (vars.map (fun nv => nv.2))).length =
      (vars.map (fun nv => nv.2.length)).prod := by
  rw [length_combinations, List.map_map]
  rfl

theorem combos_length_pos (vars : List (List Char × List (List Char)))
    (hne : ∀ nv ∈ vars, nv.2 ≠ []) :
    0 < (combinations (vars.map (fun nv => nv.2))).length := by
  rw [length_combinations]
  apply List.prod_pos
  intro x hx
  obtain ⟨l, hl, rfl⟩ := List.mem_map.1 hx
  obtain ⟨nv, hnv, rfl⟩ := List.mem_map.1 hl
  exact List.length_pos.2 (hne nv hnv)

theorem combos_isEmpty_false (vars : List (List Char × List (List Char)))
    (hne : ∀ nv ∈ vars, nv.2 ≠ []) :
    (combinations (vars.map (fun nv => nv.2))).isEmpty = false := by
  have hpos := combos_length_pos vars hne
  cases hc : combinations (vars.map (fun nv => nv.2)) with
  | nil => rw [hc] at hpos; simp at hpos
  | cons a t => rfl

theorem expandOne_eq_map (p : InPanel) (vars : List (List Char × List (List Char)))
    (hv : p.templateVars = some vars)
    (hne : ∀ nv ∈ vars, nv.2 ≠ []) :
    expandOne p = (combinations (vars.map (fun nv => nv.2))).map
      (mkExpandedPanel p (vars.map (fun nv => nv.1))
        (round1 (p.duration /
          ((combinations (vars.map (fun nv => nv.2))).length : ℚ)))) := by
  simp [expandOne, hv, combos_isEmpty_false vars hne]

theorem joinSep_mem_decomp (sep : List Char) (l : List (List Char)) (x : List Char)
    (h : x ∈ l) : ∃ a b, joinSep sep l = a ++ x ++ b := by
  induction l with
  | nil => cases h
  | cons y t ih =>
    cases t with
    | nil =>
      rcases List.mem_singleton.1 h with rfl
      exact ⟨[], [], by simp [joinSep]⟩
    | cons z t' =>
      rcases List.mem_cons.1 h with rfl | hmem
      · exact ⟨[], sep ++ joinSep sep (z :: t'), by simp [joinSep, List.append_assoc]⟩
      · obtain ⟨a, b, hab⟩ := ih hmem
        exact ⟨y ++ sep ++ a, b, by simp [joinSep, hab, List.append_assoc]⟩

theorem substr_mkExpandedName (base : List Char)
    (m : List (List Char × List Char)) (nv : List Char × List Char)
    (h : nv ∈ m) :
    substr (nv.1 ++ "=".data ++ nv.2) (mkExpandedName base m) = true := by
  have hpart : (nv.1 ++ "=".data ++ nv.2) ∈
      m.map (fun nv => nv.1 ++ "=".data ++ nv.2) :=
    List.mem_map_of_mem _ h
  obtain ⟨a, b, hab⟩ := joinSep_mem_decomp ", ".data _ _ hpart
  rw [mkExpandedName, hab]
  have hs := substr_of_decomp (nv.1 ++ "=".data ++ nv.2)
    (base ++ " (".data ++ a) (b ++ ")".data)
  simpa [List.append_assoc] using hs

theorem roundHalfEven_nonneg (q : ℚ) (h : 0 ≤ q) : 0 ≤ roundHalfEven q := by
  have hf : (0 : ℤ) ≤ ⌊q⌋ := Int.floor_nonneg.mpr h
  unfold roundHalfEven
  by_cases ht : q - ⌊q⌋ = 1 / 2
  · by_cases he : ⌊q⌋ % 2 = 0
    · simpa [ht, he] using hf
    · simp only [ht, he, if_true, if_false]
      omega
  · simp only [ht, if_false]
    rw [round_eq]
    refine Int.floor_nonneg.mpr ?_
    linarith

theorem round1_nonneg (q : ℚ) (h : 0 ≤ q) : 0 ≤ round1 q := by
  unfold round1
  have h10 : (0 : ℚ) ≤ 10 * q := by linarith
  have hr := roundHalfEven_nonneg _ h10
  have : (0 : ℚ) ≤ (roundHalfEven (10 * q) : ℚ) := by exact_mod_cast hr
  positivity

theorem substituteVars_id (url : List Char) (m : List (List Char × List Char))
    (h : ∀ nv ∈ m, substr (placeholderOf nv.1) url = false) :
    substituteVars url m = url := by
  induction m with
  | nil => rfl
  | cons nv rest ih =>
    have h1 := h nv (List.mem_cons_self _ _)
    unfold substituteVars
    rw [List.foldl_cons, pyReplace_id_of_not_substr _ _ _ h1]
    exact ih fun nv' hm => h nv' (List.mem_cons_of_mem _ hm)

theorem round1_eq_zero_of_small (q : ℚ) (h0 : 0 ≤ q) (hs : q < 1 / 20) :
    round1 q = 0 := by
  have hfl : ⌊(10 * q)⌋ = 0 :=
    Int.floor_eq_zero_iff.mpr (Set.mem_Ico.mpr ⟨by linarith, by linarith⟩)
  have hne : 10 * q - (⌊10 * q⌋ : ℚ) ≠ 1 / 2 := by
    rw [hfl]
    push_cast
    intro hc
    linarith
  have hfl2 : ⌊10 * q + 1 / 2⌋ = 0 :=
    Int.floor_eq_zero_iff.mpr (Set.mem_Ico.mpr ⟨by linarith, by linarith⟩)
  unfold round1 roundHalfEven
  rw [if_neg hne, round_eq, hfl2]
  norm_num

/- ## Panel expansion claims (C4, C5, C10) -/

/-- Counterexample to claim C4 as stated: the configuration holding a single
valid templated panel (duration 0.1 > 0, one variable with 3 non-empty
values) expands to panels whose duration round(0.1/3, 1) = 0.0 is not
strictly positive. -/
theorem c4_counterexample :
    0 < c4Panel.duration ∧
    c4Panel.templateVars = some [("a".data, ["1".data, "2".data, "3".data])] ∧
    (∀ nv ∈ [(("a".data : List Char), (["1".data, "2".data, "3".data] : List (List Char)))],
      nv.2 ≠ []) ∧
    ∃ q ∈ expand_panels [c4Panel], ¬ (0 < q.duration) := by
  have hlen : ((combinations (([(("a".data : List Char),
      (["1".data, "2".data, "3".data] : List (List Char)))]).map
      (fun nv => nv.2))).length) = 3 := by decide
  have hdz : round1 (c4Panel.duration /
      (((combinations (([(("a".data : List Char),
        (["1".data, "2".data, "3".data] : List (List Char)))]).map
        (fun nv => nv.2))).length : ℕ) : ℚ)) = 0 := by
    rw [hlen]
    apply round1_eq_zero_of_small
    · show (0 : ℚ) ≤ c4Panel.duration / ((3 : ℕ) : ℚ)
      norm_num [c4Panel]
    · show c4Panel.duration / ((3 : ℕ) : ℚ) < 1 / 20
      norm_num [c4Panel]
  refine ⟨by norm_num [c4Panel], rfl, by decide, ?_⟩
  refine ⟨mkExpandedPanel c4Panel ["a".data]
    (round1 (c4Panel.duration /
      (((combinations (([(("a".data : List Char),
        (["1".data, "2".data, "3".data] : List (List Char)))]).map
        (fun nv => nv.2))).length : ℕ) : ℚ))) ["1".data], ?_, ?_⟩
  · show _ ∈ flatAppend expandOne [c4Panel]
    rw [show flatAppend expandOne [c4Panel] = expandOne c4Panel from by
      simp [flatAppend]]
    rw [expandOne_eq_map c4Panel [("a".data, ["1".data, "2".data, "3".data])]
      rfl (by decide)]
    exact List.mem_map_of_mem _ (by decide)
  · show ¬ (0 < (mkExpandedPanel c4Panel _ _ _).duration)
    rw [show (mkExpandedPanel c4Panel ["a".data]
      (round1 (c4Panel.duration /
        (((combinations (([(("a".data : List Char),
          (["1".data, "2".data, "3".data] : List (List Char)))]).map
          (fun nv => nv.2))).length : ℕ) : ℚ))) ["1".data]).duration =
      round1 (c4Panel.duration /
        (((combinations (([(("a".data : List Char),
          (["1".data, "2".data, "3".data] : List (List Char)))]).map
          (fun nv => nv.2))).length : ℕ) : ℚ)) from rfl, hdz]
    norm_num

/-- Claim C4 (amended): for a valid configuration (variable lists non-empty,
durations positive) every panel in the expanded list is non-templated — it is
either an untouched pass-through panel, whose duration stays strictly
positive, or an expanded panel whose URL is the parent URL with its
combination substituted in; every duration is non-negative, but the
one-decimal rounding of the duration share can make an expanded panel's
duration zero. -/
theorem c4_expand_invariant_amended (ps : List InPanel)
    (hdur : ∀ p ∈ ps, 0 < p.duration)
    (hvars : ∀ p ∈ ps, ∀ vars, p.templateVars = some vars → ∀ nv ∈ vars, nv.2 ≠ []) :
    ∀ q ∈ expand_panels ps,
      0 ≤ q.duration ∧
      (q.varMap = none → 0 < q.duration) ∧
      ∃ p ∈ ps,
        (q.varMap = none ∧ q = passThrough p) ∨
        (∃ m, q.varMap = some m ∧ q.url = substituteVars p.url m) := by
  intro q hq
  obtain ⟨p, hp, hqe⟩ := mem_flatAppend.1 hq
  cases htv : p.templateVars with
  | none =>
    simp only [expandOne, htv, List.mem_singleton] at hqe
    subst hqe
    exact ⟨le_of_lt (hdur p hp), fun _ => hdur p hp, p, hp, Or.inl ⟨rfl, rfl⟩⟩
  | some vars =>
    have hne := hvars p hp vars htv
    rw [expandOne_eq_map p vars htv hne] at hqe
    obtain ⟨combo, hcombo, hqe'⟩ := List.mem_map.1 hqe
    subst hqe'
    have hdq : 0 ≤ round1 (p.duration /
        ((combinations (vars.map (fun nv => nv.2))).length : ℚ)) :=
      round1_nonneg _ (div_nonneg (le_of_lt (hdur p hp)) (Nat.cast_nonneg _))
    refine ⟨hdq, ?_, p, hp, Or.inr ⟨_, rfl, rfl⟩⟩
    intro hnone
    simp [mkExpandedPanel] at hnone

/-- Witness for the amended C4 at a one-panel valid configuration. -/
theorem c4_witness :
    0 ≤ (passThrough w4Panel).duration ∧
    ((passThrough w4Panel).varMap = none → 0 < (passThrough w4Panel).duration) ∧
    ∃ p ∈ [w4Panel],
      ((passThrough w4Panel).varMap = none ∧ passThrough w4Panel = passThrough p) ∨
      (∃ m, (passThrough w4Panel).varMap = some m ∧
        (passThrough w4Panel).url = substituteVars p.url m) :=
  c4_expand_invariant_amended [w4Panel]
    (by
      intro p hp
      rw [List.mem_singleton] at hp
      subst hp
      norm_num [w4Panel])
    (by
      intro p hp vars hv
      rw [List.mem_singleton] at hp
      subst hp
      simp [w4Panel] at hv)
    (passThrough w4Panel)
    (by simp [expand_panels, flatAppend, expandOne, w4Panel])

/-- Claim C5: a templated panel with non-empty variable sets of sizes
n1..nk expands to exactly the product n1*...*nk concrete panels, each with
duration round(original / product, 1), and each carrying an assignment whose
every key=value pair appears verbatim in the generated display name. -/
theorem c5_expansion_shape (p : InPanel) (vars : List (List Char × List (List Char)))
    (hv : p.templateVars = some vars)
    (hne : ∀ nv ∈ vars, nv.2 ≠ []) :
    (expandOne p).length = (vars.map (fun nv => nv.2.length)).prod ∧
    ∀ q ∈ expandOne p,
      q.duration = round1 (p.duration /
        ((((vars.map (fun nv => nv.2.length)).prod : ℕ)) : ℚ)) ∧
      ∃ m, q.varMap = some m ∧
        ∀ nv ∈ m, substr (nv.1 ++ "=".data ++ nv.2) (q.name.getD []) = true := by
  rw [expandOne_eq_map p vars hv hne]
  constructor
  · rw [List.length_map, combos_length]
  · intro q hq
    obtain ⟨combo, hcombo, hqe'⟩ := List.mem_map.1 hq
    subst hqe'
    constructor
    · show round1 (p.duration /
        ((combinations (vars.map (fun nv => nv.2))).length : ℚ)) = _
      rw [combos_length]
    · refine ⟨_, rfl, ?_⟩
      intro nv hnv
      show substr _ ((some (mkExpandedName (nameOf p)
        ((vars.map (fun nv => nv.1)).zip combo))).getD []) = true
      rw [Option.getD_some]
      exact substr_mkExpandedName _ _ _ hnv

/-- Witness for C5 at a concrete 2 x 3 template. -/
theorem c5_witness :
    (expandOne w5Panel).length = (w5Vars.map (fun nv => nv.2.length)).prod ∧
    ∀ q ∈ expandOne w5Panel,
      q.duration = round1 (w5Panel.duration /
        ((((w5Vars.map (fun nv => nv.2.length)).prod : ℕ)) : ℚ)) ∧
      ∃ m, q.varMap = some m ∧
        ∀ nv ∈ m, substr (nv.1 ++ "=".data ++ nv.2) (q.name.getD []) = true :=
  c5_expansion_shape w5Panel w5Vars rfl (by decide)

/-- Claim C10: URL substitution during expansion replaces only exact
occurrences of the literal placeholder var-name=name; when the parent URL
contains no placeholder of any of its variables, every expanded panel keeps
the parent URL verbatim, while the expansion still emits one panel per
combination. -/
theorem c10_substitution_no_placeholder (p : InPanel)
    (vars : List (List Char × List (List Char)))
    (hv : p.templateVars = some vars)
    (hne : ∀ nv ∈ vars, nv.2 ≠ [])
    (hnotin : ∀ nv ∈ vars, substr (placeholderOf nv.1) p.url = false) :
    (expandOne p).length = (vars.map (fun nv => nv.2.length)).prod ∧
    ∀ q ∈ expandOne p, q.url = p.url := by
  rw [expandOne_eq_map p vars hv hne]
  constructor
  · rw [List.length_map, combos_length]
  · intro q hq
    obtain ⟨combo, hcombo, hqe'⟩ := List.mem_map.1 hq
    subst hqe'
    show substituteVars p.url ((vars.map (fun nv => nv.1)).zip combo) = p.url
    apply substituteVars_id
    intro nv hnv
    have h1 : nv.1 ∈ vars.map (fun nv => nv.1) := (List.of_mem_zip hnv).1
    obtain ⟨nv0, hnv0, he⟩ := List.mem_map.1 h1
    rw [← he]
    exact hnotin nv0 hnv0

/-- Witness for C10 at a concrete template whose URL has no placeholder:
both expanded panels keep the parent URL. -/
theorem c10_witness :
    (expandOne w10Panel).length =
      (([(("a".data : List Char), (["p".data, "q".data] : List (List Char)))].map
        (fun nv => nv.2.length)).prod) ∧
    ∀ q ∈ expandOne w10Panel, q.url = w10Panel.url :=
  c10_substitution_no_placeholder w10Panel
    [("a".data, ["p".data, "q".data])] rfl (by decide) (by decide)
